import Mathlib

/-!
Verification development for the CurveRider vault core: the delegation and
position ledgers, the exit-policy parameter table, the signal-kind thresholds,
the delegation account addressing, and the frontend delegation manager.

Machine widths follow the on-chain account layout documented in the repository
(u8 for activeTrades and maxConcurrentTrades, u64 for lamport amounts and trade
counters, i64 for PnL and timestamps); arithmetic is overflow-checked and fails
with MathOverflow instead of wrapping.
-/

namespace CurveriderVault

/-- Public keys are opaque identities; we model them as naturals. -/
abbrev PubKey := Nat

def u8Max : Nat := 255

def u64Max : Nat := 18446744073709551615

def i64Min : Int := -9223372036854775808

def i64Max : Int := 9223372036854775807

/-- True when a signed value fits in an i64 field. -/
def fitsI64 (x : Int) : Bool := i64Min ≤ x && x ≤ i64Max

/-- Error taxonomy of the vault program (spec section 7). -/
inductive VaultError where
  | Unauthorized
  | InvalidStrategy
  | InvalidAmount
  | DelegationInactive
  | PositionTooLarge
  | MaxTradesReached
  | AlreadyClosed
  | MathOverflow
deriving DecidableEq, Repr

/-- Delegation record, named after the `delegationAccount` the tests fetch.
The `strategy` field is the raw stored code (valid codes are 0..3). -/
structure DelegationAccount where
  user : PubKey
  botAuthority : PubKey
  strategy : Nat
  maxPositionSizeSol : Nat
  maxConcurrentTrades : Nat
  isActive : Bool
  activeTrades : Nat
  totalTrades : Nat
  profitableTrades : Nat
  totalPnl : Int
  createdAt : Int
deriving DecidableEq, Repr

/-- Position status; the tests observe Open as 0 and Closed as 1. -/
inductive PositionStatus where
  | Open
  | Closed
deriving DecidableEq, Repr

/-- Position record as fetched by the tests (`program.account.position`). -/
structure Position where
  delegation : PubKey
  user : PubKey
  tokenMint : PubKey
  amountSol : Nat
  entryPrice : Nat
  currentPrice : Nat
  takeProfitPrice : Nat
  stopLossPrice : Nat
  status : PositionStatus
  openedAt : Int
  closedAt : Option Int
  pnl : Int
deriving DecidableEq, Repr

/-- Modelled from the spec: the Anchor program source (`create_delegation`) is
not in the repository snapshot, only its tests and callers are; this follows
spec section 4.1. Fails InvalidStrategy if the strategy code is outside 0..3,
fails InvalidAmount if `maxPositionSizeSol = 0` or `maxConcurrentTrades` is
outside 1..10, otherwise creates an active record with all counters zero. -/
def createDelegation (user botAuthority : PubKey) (strategy : Nat)
    (maxPositionSizeSol : Nat) (maxConcurrentTrades : Nat) (now : Int) :
    Except VaultError DelegationAccount :=
  if 3 < strategy then .error .InvalidStrategy
  else if maxPositionSizeSol = 0 ∨ maxConcurrentTrades < 1 ∨ 10 < maxConcurrentTrades then
    .error .InvalidAmount
  else .ok { user := user, botAuthority := botAuthority, strategy := strategy,
             maxPositionSizeSol := maxPositionSizeSol,
             maxConcurrentTrades := maxConcurrentTrades,
             isActive := true, activeTrades := 0, totalTrades := 0,
             profitableTrades := 0, totalPnl := 0, createdAt := now }

/-- Modelled from the spec: the Anchor program source (`update_delegation`) is
not in the repository snapshot; this follows spec section 4.1. Each field is
independently optional (none means leave unchanged); fails Unauthorized unless
the caller is the owning user, then re-validates any provided field with the
creation rules. Counters are untouched. -/
def updateDelegation (d : DelegationAccount) (caller : PubKey)
    (newStrategy : Option Nat) (newMaxPositionSizeSol : Option Nat)
    (newMaxConcurrentTrades : Option Nat) (newIsActive : Option Bool) :
    Except VaultError DelegationAccount :=
  if caller ≠ d.user then .error .Unauthorized
  else if newStrategy.any (fun s => decide (3 < s)) then
    .error .InvalidStrategy
  else if newMaxPositionSizeSol.any (fun m => decide (m = 0)) then
    .error .InvalidAmount
  else if newMaxConcurrentTrades.any (fun t => decide (t < 1) || decide (10 < t)) then
    .error .InvalidAmount
  else .ok { d with
    strategy := newStrategy.getD d.strategy,
    maxPositionSizeSol := newMaxPositionSizeSol.getD d.maxPositionSizeSol,
    maxConcurrentTrades := newMaxConcurrentTrades.getD d.maxConcurrentTrades,
    isActive := newIsActive.getD d.isActive }

/-- Modelled from the spec: the Anchor program source (`revoke_delegation`) is
not in the repository snapshot; this follows spec section 4.1. Sets
`isActive := false`; fails Unauthorized unless the caller is the owning user.
Existing positions are not touched. -/
def revokeDelegation (d : DelegationAccount) (caller : PubKey) :
    Except VaultError DelegationAccount :=
  if caller ≠ d.user then .error .Unauthorized
  else .ok { d with isActive := false }

/-- Modelled from the spec: the Anchor program source (`open_position`) is not
in the repository snapshot; this follows spec section 4.2. Validation order:
Unauthorized, DelegationInactive, PositionTooLarge, MaxTradesReached; then the
counters are incremented with overflow-checked arithmetic. -/
def openPosition (d : DelegationAccount) (caller : PubKey) (tokenMint : PubKey)
    (amountSol entryPrice takeProfitPrice stopLossPrice : Nat) (now : Int) :
    Except VaultError (DelegationAccount × Position) :=
  if caller ≠ d.botAuthority then .error .Unauthorized
  else if d.isActive = false then .error .DelegationInactive
  else if d.maxPositionSizeSol < amountSol then .error .PositionTooLarge
  else if d.maxConcurrentTrades ≤ d.activeTrades then .error .MaxTradesReached
  else if u8Max < d.activeTrades + 1 ∨ u64Max < d.totalTrades + 1 then .error .MathOverflow
  else .ok ({ d with activeTrades := d.activeTrades + 1, totalTrades := d.totalTrades + 1 },
            { delegation := d.user, user := d.user, tokenMint := tokenMint,
              amountSol := amountSol, entryPrice := entryPrice,
              currentPrice := entryPrice, takeProfitPrice := takeProfitPrice,
              stopLossPrice := stopLossPrice, status := .Open,
              openedAt := now, closedAt := none, pnl := 0 })

/-- Modelled from the spec: the Anchor program source (`close_position`) is not
in the repository snapshot; this follows spec section 4.2. Fails Unauthorized
unless the caller is the delegation's bot authority, fails AlreadyClosed unless
the position is Open; otherwise sets `currentPrice := exitPrice`,
`status := Closed`, `closedAt := now`, `pnl := amountReceived - amountSol`,
decrements `activeTrades`, increments `profitableTrades` iff the PnL is
positive and adds the PnL to `totalPnl`, all overflow-checked. -/
def closePosition (d : DelegationAccount) (p : Position) (caller : PubKey)
    (exitPrice amountReceived : Nat) (now : Int) :
    Except VaultError (DelegationAccount × Position) :=
  if caller ≠ d.botAuthority then .error .Unauthorized
  else if p.status ≠ .Open then .error .AlreadyClosed
  else if d.activeTrades = 0 then .error .MathOverflow
  else if !fitsI64 ((amountReceived : Int) - (p.amountSol : Int)) then .error .MathOverflow
  else if !fitsI64 (d.totalPnl + ((amountReceived : Int) - (p.amountSol : Int))) then
    .error .MathOverflow
  else if (amountReceived : Int) - (p.amountSol : Int) > 0 ∧ u64Max < d.profitableTrades + 1 then
    .error .MathOverflow
  else .ok ({ d with activeTrades := d.activeTrades - 1,
                     profitableTrades := d.profitableTrades +
                       (if (amountReceived : Int) - (p.amountSol : Int) > 0 then 1 else 0),
                     totalPnl := d.totalPnl + ((amountReceived : Int) - (p.amountSol : Int)) },
            { p with currentPrice := exitPrice, status := .Closed,
                     closedAt := some now,
                     pnl := (amountReceived : Int) - (p.amountSol : Int) })

/-- State seen after an openPosition attempt: validation failures leave the
delegation record unchanged (all-or-nothing, spec section 4.2). -/
def applyOpenPosition (d : DelegationAccount) (caller : PubKey) (tokenMint : PubKey)
    (amountSol entryPrice takeProfitPrice stopLossPrice : Nat) (now : Int) :
    DelegationAccount :=
  match openPosition d caller tokenMint amountSol entryPrice takeProfitPrice stopLossPrice now with
  | .ok (d', _) => d'
  | .error _ => d

/-- State seen after an updateDelegation attempt: failures leave the record
unchanged. -/
def applyUpdateDelegation (d : DelegationAccount) (caller : PubKey)
    (newStrategy : Option Nat) (newMaxPositionSizeSol : Option Nat)
    (newMaxConcurrentTrades : Option Nat) (newIsActive : Option Bool) :
    DelegationAccount :=
  match updateDelegation d caller newStrategy newMaxPositionSizeSol
      newMaxConcurrentTrades newIsActive with
  | .ok d' => d'
  | .error _ => d

/-- State seen after a closePosition attempt: failures leave both records
unchanged. -/
def applyClosePosition (d : DelegationAccount) (p : Position) (caller : PubKey)
    (exitPrice amountReceived : Nat) (now : Int) :
    DelegationAccount × Position :=
  match closePosition d p caller exitPrice amountReceived now with
  | .ok r => r
  | .error _ => (d, p)

/-- Delegation states reachable by creation followed by any sequence of
successful operations. -/
inductive ReachableDelegation : DelegationAccount → Prop where
  | created {u b : PubKey} {s mp mt : Nat} {now : Int} {d : DelegationAccount}
      (h : createDelegation u b s mp mt now = .ok d) : ReachableDelegation d
  | updated {d d' : DelegationAccount} {c : PubKey}
      {ns nmp nmt : Option Nat} {na : Option Bool}
      (hd : ReachableDelegation d)
      (h : updateDelegation d c ns nmp nmt na = .ok d') : ReachableDelegation d'
  | revoked {d d' : DelegationAccount} {c : PubKey}
      (hd : ReachableDelegation d)
      (h : revokeDelegation d c = .ok d') : ReachableDelegation d'
  | opened {d d' : DelegationAccount} {p : Position} {c tm : PubKey}
      {a ep tp sl : Nat} {now : Int}
      (hd : ReachableDelegation d)
      (h : openPosition d c tm a ep tp sl now = .ok (d', p)) : ReachableDelegation d'
  | closed {d d' : DelegationAccount} {p p' : Position} {c : PubKey}
      {xp ar : Nat} {now : Int}
      (hd : ReachableDelegation d)
      (h : closePosition d p c xp ar now = .ok (d', p')) : ReachableDelegation d'

/-- Reachability where every update keeps the concurrent-trade cap at or above
the current number of active trades. -/
inductive CapRespectingReachable : DelegationAccount → Prop where
  | created {u b : PubKey} {s mp mt : Nat} {now : Int} {d : DelegationAccount}
      (h : createDelegation u b s mp mt now = .ok d) : CapRespectingReachable d
  | updated {d d' : DelegationAccount} {c : PubKey}
      {ns nmp nmt : Option Nat} {na : Option Bool}
      (hd : CapRespectingReachable d)
      (hcap : ∀ t ∈ nmt, d.activeTrades ≤ t)
      (h : updateDelegation d c ns nmp nmt na = .ok d') : CapRespectingReachable d'
  | revoked {d d' : DelegationAccount} {c : PubKey}
      (hd : CapRespectingReachable d)
      (h : revokeDelegation d c = .ok d') : CapRespectingReachable d'
  | opened {d d' : DelegationAccount} {p : Position} {c tm : PubKey}
      {a ep tp sl : Nat} {now : Int}
      (hd : CapRespectingReachable d)
      (h : openPosition d c tm a ep tp sl now = .ok (d', p)) : CapRespectingReachable d'
  | closed {d d' : DelegationAccount} {p p' : Position} {c : PubKey}
      {xp ar : Nat} {now : Int}
      (hd : CapRespectingReachable d)
      (h : closePosition d p c xp ar now = .ok (d', p')) : CapRespectingReachable d'

theorem createDelegation_ok_fields {u b : PubKey} {s mp mt : Nat} {now : Int}
    {d : DelegationAccount} (h : createDelegation u b s mp mt now = .ok d) :
    d.activeTrades = 0 ∧ d.totalTrades = 0 ∧ d.profitableTrades = 0 ∧
    d.user = u ∧ d.botAuthority = b ∧ d.isActive = true ∧
    d.strategy = s ∧ d.maxPositionSizeSol = mp ∧ d.maxConcurrentTrades = mt := by
  unfold createDelegation at h
  split at h
  · exact absurd h (by simp)
  · split at h
    · exact absurd h (by simp)
    · cases h
      simp

theorem updateDelegation_ok_fields {d d' : DelegationAccount} {c : PubKey}
    {ns nmp nmt : Option Nat} {na : Option Bool}
    (h : updateDelegation d c ns nmp nmt na = .ok d') :
    d'.activeTrades = d.activeTrades ∧ d'.totalTrades = d.totalTrades ∧
    d'.profitableTrades = d.profitableTrades ∧ d'.totalPnl = d.totalPnl ∧
    d'.maxConcurrentTrades = nmt.getD d.maxConcurrentTrades := by
  unfold updateDelegation at h
  split at h
  · exact absurd h (by simp)
  · split at h
    · exact absurd h (by simp)
    · split at h
      · exact absurd h (by simp)
      · split at h
        · exact absurd h (by simp)
        · cases h
          simp

theorem revokeDelegation_ok_fields {d d' : DelegationAccount} {c : PubKey}
    (h : revokeDelegation d c = .ok d') :
    d' = { d with isActive := false } := by
  unfold revokeDelegation at h
  split at h
  · exact absurd h (by simp)
  · cases h
    rfl

theorem openPosition_ok_fields {d d' : DelegationAccount} {p : Position}
    {c tm : PubKey} {a ep tp sl : Nat} {now : Int}
    (h : openPosition d c tm a ep tp sl now = .ok (d', p)) :
    d'.activeTrades = d.activeTrades + 1 ∧ d'.totalTrades = d.totalTrades + 1 ∧
    d'.profitableTrades = d.profitableTrades ∧
    d'.maxConcurrentTrades = d.maxConcurrentTrades ∧
    d.activeTrades < d.maxConcurrentTrades ∧
    p.status = .Open ∧ p.amountSol = a ∧ a ≤ d.maxPositionSizeSol := by
  unfold openPosition at h
  split at h
  · exact absurd h (by simp)
  · split at h
    · exact absurd h (by simp)
    · split at h
      · exact absurd h (by simp)
      · split at h
        · exact absurd h (by simp)
        · split at h
          · exact absurd h (by simp)
          · cases h
            rename_i h1 h2 h3 h4 h5
            refine ⟨rfl, rfl, rfl, rfl, by omega, rfl, rfl, by omega⟩

theorem closePosition_ok_fields {d d' : DelegationAccount} {p p' : Position}
    {c : PubKey} {xp ar : Nat} {now : Int}
    (h : closePosition d p c xp ar now = .ok (d', p')) :
    p.status = .Open ∧
    p'.status = .Closed ∧ p'.currentPrice = xp ∧ p'.closedAt = some now ∧
    p'.pnl = (ar : Int) - (p.amountSol : Int) ∧
    1 ≤ d.activeTrades ∧ d'.activeTrades = d.activeTrades - 1 ∧
    d'.totalTrades = d.totalTrades ∧
    d'.maxConcurrentTrades = d.maxConcurrentTrades ∧
    d'.profitableTrades =
      d.profitableTrades + (if (ar : Int) - (p.amountSol : Int) > 0 then 1 else 0) ∧
    d'.totalPnl = d.totalPnl + ((ar : Int) - (p.amountSol : Int)) := by
  unfold closePosition at h
  split at h
  · exact absurd h (by simp)
  · split at h
    · exact absurd h (by simp)
    · split at h
      · exact absurd h (by simp)
      · split at h
        · exact absurd h (by simp)
        · split at h
          · exact absurd h (by simp)
          · split at h
            · exact absurd h (by simp)
            · rename_i hc hst hz hf1 hf2 hf3
              cases h
              refine ⟨by simpa using hst, rfl, rfl, rfl, rfl, by omega, rfl, rfl, rfl, rfl, rfl⟩

/-- The counter bookkeeping invariant: every still-active trade has been
counted in totalTrades but not yet in profitableTrades. -/
def StatInv (d : DelegationAccount) : Prop :=
  d.profitableTrades + d.activeTrades ≤ d.totalTrades

theorem reachable_statInv {d : DelegationAccount} (h : ReachableDelegation d) :
    StatInv d := by
  induction h with
  | created h =>
      obtain ⟨h1, h2, h3, -⟩ := createDelegation_ok_fields h
      unfold StatInv
      omega
  | updated hd h ih =>
      obtain ⟨h1, h2, h3, -⟩ := updateDelegation_ok_fields h
      unfold StatInv at ih ⊢
      omega
  | revoked hd h ih =>
      cases revokeDelegation_ok_fields h
      exact ih
  | opened hd h ih =>
      obtain ⟨h1, h2, h3, -⟩ := openPosition_ok_fields h
      unfold StatInv at ih ⊢
      omega
  | closed hd h ih =>
      obtain ⟨-, -, -, -, -, h6, h7, h8, -, h10, -⟩ := closePosition_ok_fields h
      unfold StatInv at ih ⊢
      split at h10 <;> omega

theorem capRespecting_capInv {d : DelegationAccount} (h : CapRespectingReachable d) :
    d.activeTrades ≤ d.maxConcurrentTrades := by
  induction h with
  | created h =>
      obtain ⟨h1, -⟩ := createDelegation_ok_fields h
      omega
  | @updated d d' c ns nmp nmt na hd hcap h ih =>
      obtain ⟨h1, -, -, -, h5⟩ := updateDelegation_ok_fields h
      cases nmt with
      | none => simpa [h1, h5] using ih
      | some t =>
          have ht := hcap t rfl
          simp only [Option.getD_some] at h5
          omega
  | revoked hd h ih =>
      cases revokeDelegation_ok_fields h
      exact ih
  | opened hd h ih =>
      obtain ⟨h1, -, -, h4, h5, -⟩ := openPosition_ok_fields h
      omega
  | closed hd h ih =>
      obtain ⟨-, -, -, -, -, h6, h7, h8, h9, -⟩ := closePosition_ok_fields h
      omega

/-- Sample delegation with one active trade, used to instantiate theorems. -/
def sampleDelegation : DelegationAccount :=
  { user := 0, botAuthority := 1, strategy := 0, maxPositionSizeSol := 100,
    maxConcurrentTrades := 3, isActive := true, activeTrades := 1,
    totalTrades := 1, profitableTrades := 0, totalPnl := 0, createdAt := 0 }

/-- Sample open position belonging to `sampleDelegation`. -/
def samplePosition : Position :=
  { delegation := 0, user := 0, tokenMint := 7, amountSol := 50,
    entryPrice := 10, currentPrice := 10, takeProfitPrice := 20,
    stopLossPrice := 5, status := .Open, openedAt := 0, closedAt := none, pnl := 0 }

/-- The `sampleDelegation` after closing its position with 75 received for 50. -/
def sampleClosedDelegation : DelegationAccount :=
  { sampleDelegation with activeTrades := 0, profitableTrades := 1, totalPnl := 25 }

/-- The `samplePosition` after closing at exit price 30 with 75 received. -/
def sampleClosedPosition : Position :=
  { samplePosition with
    currentPrice := 30
    status := .Closed
    closedAt := some 9
    pnl := 25 }

/-- C1: a successful closePosition sets status to Closed and currentPrice to
the exit price, sets pnl to exactly amountReceived minus amountSol, decrements
the owning delegation's activeTrades by one, increments profitableTrades by
one iff the pnl is positive, and adds the pnl to totalPnl. -/
theorem closePosition_success_effects (d d' : DelegationAccount) (p p' : Position)
    (caller : PubKey) (exitPrice amountReceived : Nat) (now : Int)
    (h : closePosition d p caller exitPrice amountReceived now = .ok (d', p')) :
    p'.status = .Closed ∧ p'.currentPrice = exitPrice ∧
    p'.pnl = (amountReceived : Int) - (p.amountSol : Int) ∧
    d.activeTrades = d'.activeTrades + 1 ∧
    (d'.profitableTrades = d.profitableTrades + 1 ↔ p'.pnl > 0) ∧
    (¬ p'.pnl > 0 → d'.profitableTrades = d.profitableTrades) ∧
    d'.totalPnl = d.totalPnl + p'.pnl := by
  obtain ⟨hO, hS, hC, hCl, hP, hA1, hA2, hT, hM, hPf, hPnl⟩ := closePosition_ok_fields h
  refine ⟨hS, hC, hP, by omega, ?_, ?_, by rw [hP]; exact hPnl⟩
  · rw [hP]
    by_cases hpos : (amountReceived : Int) - (p.amountSol : Int) > 0
    · rw [if_pos hpos] at hPf
      exact ⟨fun _ => hpos, fun _ => hPf⟩
    · rw [if_neg hpos] at hPf
      exact ⟨fun hEq => by omega, fun hcon => absurd hcon hpos⟩
  · rw [hP]
    intro hneg
    rw [if_neg hneg] at hPf
    omega

theorem closePosition_success_effects_witness :
    sampleClosedPosition.status = .Closed ∧
    sampleClosedPosition.currentPrice = 30 ∧
    sampleClosedPosition.pnl = (75 : Int) - (samplePosition.amountSol : Int) ∧
    sampleDelegation.activeTrades = sampleClosedDelegation.activeTrades + 1 ∧
    (sampleClosedDelegation.profitableTrades = sampleDelegation.profitableTrades + 1 ↔
      sampleClosedPosition.pnl > 0) ∧
    (¬ sampleClosedPosition.pnl > 0 →
      sampleClosedDelegation.profitableTrades = sampleDelegation.profitableTrades) ∧
    sampleClosedDelegation.totalPnl = sampleDelegation.totalPnl + sampleClosedPosition.pnl :=
  closePosition_success_effects sampleDelegation sampleClosedDelegation
    samplePosition sampleClosedPosition 1 30 75 9 rfl

/-- C2 (amended): profitableTrades never exceeds totalTrades after any
operation; activeTrades never exceeds maxConcurrentTrades as long as no
updateDelegation lowers the cap below the current activeTrades (which
updateDelegation permits, see the counterexample); and once activeTrades has
reached maxConcurrentTrades, an authorized open attempt on an active
delegation within the size limit fails MaxTradesReached. -/
theorem delegation_counter_invariants (d e : DelegationAccount)
    (hd : ReachableDelegation d) (he : CapRespectingReachable e) :
    d.profitableTrades ≤ d.totalTrades ∧
    e.activeTrades ≤ e.maxConcurrentTrades ∧
    (∀ (f : DelegationAccount) (c tm a ep tp sl : Nat) (now : Int),
      c = f.botAuthority → f.isActive = true → a ≤ f.maxPositionSizeSol →
      f.maxConcurrentTrades ≤ f.activeTrades →
      openPosition f c tm a ep tp sl now = .error .MaxTradesReached) := by
  refine ⟨?_, capRespecting_capInv he, ?_⟩
  · have hs := reachable_statInv hd
    unfold StatInv at hs
    omega
  · intro f c tm a ep tp sl now hc ha hsz hmax
    unfold openPosition
    rw [if_neg (by simp [hc]), if_neg (by simp [ha]), if_neg (by omega), if_pos hmax]

/-- Delegation with the concurrent-trade cap already reached. -/
def fullDelegation : DelegationAccount :=
  { sampleDelegation with maxConcurrentTrades := 1, activeTrades := 1 }

theorem delegation_counter_invariants_witness :
    sampleDelegation.profitableTrades ≤ sampleDelegation.totalTrades ∧
    sampleDelegation.activeTrades ≤ sampleDelegation.maxConcurrentTrades ∧
    openPosition fullDelegation 1 7 50 10 20 5 0 = .error .MaxTradesReached := by
  have hcr : createDelegation 0 1 0 100 3 0 =
      .ok { sampleDelegation with activeTrades := 0, totalTrades := 0 } := rfl
  have hop : openPosition { sampleDelegation with activeTrades := 0, totalTrades := 0 }
      1 7 50 10 20 5 0 = .ok (sampleDelegation, samplePosition) := rfl
  have h := delegation_counter_invariants sampleDelegation sampleDelegation
    (ReachableDelegation.opened (ReachableDelegation.created hcr) hop)
    (CapRespectingReachable.opened (CapRespectingReachable.created hcr) hop)
  exact ⟨h.1, h.2.1, h.2.2 fullDelegation 1 7 50 10 20 5 0 (by decide) (by decide)
    (by decide) (by decide)⟩

/-- Fresh delegation with cap 2 for the C2 counterexample. -/
def cexDelegation0 : DelegationAccount :=
  { sampleDelegation with maxConcurrentTrades := 2, activeTrades := 0, totalTrades := 0 }

/-- The counterexample delegation after one open. -/
def cexDelegation1 : DelegationAccount :=
  { cexDelegation0 with activeTrades := 1, totalTrades := 1 }

/-- The counterexample delegation after two opens. -/
def cexDelegation2 : DelegationAccount :=
  { cexDelegation0 with activeTrades := 2, totalTrades := 2 }

/-- The counterexample delegation after the cap is lowered to 1 while two
trades are active. -/
def cexDelegation3 : DelegationAccount :=
  { cexDelegation2 with maxConcurrentTrades := 1 }

theorem delegation_counter_invariants_counterexample :
    ReachableDelegation cexDelegation3 ∧
    updateDelegation cexDelegation2 0 none none (some 1) none = .ok cexDelegation3 ∧
    cexDelegation3.activeTrades = 2 ∧ cexDelegation3.maxConcurrentTrades = 1 ∧
    ¬ cexDelegation3.activeTrades ≤ cexDelegation3.maxConcurrentTrades := by
  have e0 : createDelegation 0 1 0 100 2 0 = .ok cexDelegation0 := rfl
  have e1 : openPosition cexDelegation0 1 7 50 10 20 5 0 =
      .ok (cexDelegation1, samplePosition) := rfl
  have e2 : openPosition cexDelegation1 1 7 50 10 20 5 0 =
      .ok (cexDelegation2, samplePosition) := rfl
  have e3 : updateDelegation cexDelegation2 0 none none (some 1) none =
      .ok cexDelegation3 := rfl
  have h3 : ReachableDelegation cexDelegation3 :=
    ReachableDelegation.updated
      (ReachableDelegation.opened
        (ReachableDelegation.opened (ReachableDelegation.created e0) e1) e2) e3
  exact ⟨h3, e3, by decide, by decide, by decide⟩

/-- C3: after revokeDelegation succeeds, any open attempt by the bot authority
fails DelegationInactive, while a still-open position remains closable (the
close path never consults isActive and succeeds whenever its own checks pass). -/
theorem revoke_blocks_open_keeps_close (d d' : DelegationAccount) (caller : PubKey)
    (hrev : revokeDelegation d caller = .ok d') :
    (∀ (c tm a ep tp sl : Nat) (now : Int), c = d'.botAuthority →
        openPosition d' c tm a ep tp sl now = .error .DelegationInactive) ∧
    (∀ (p : Position) (c : PubKey) (xp ar : Nat) (now : Int),
        c = d'.botAuthority → p.status = .Open → 1 ≤ d'.activeTrades →
        fitsI64 ((ar : Int) - (p.amountSol : Int)) = true →
        fitsI64 (d'.totalPnl + ((ar : Int) - (p.amountSol : Int))) = true →
        d'.profitableTrades + 1 ≤ u64Max →
        ∃ r, closePosition d' p c xp ar now = .ok r) := by
  have hfields := revokeDelegation_ok_fields hrev
  subst hfields
  constructor
  · intro c tm a ep tp sl now hc
    unfold openPosition
    rw [if_neg (by simp [hc]), if_pos rfl]
  · intro p c xp ar now hc hopen hact hf1 hf2 hpf
    unfold closePosition
    rw [if_neg (by simp [hc]), if_neg (by simp [hopen]), if_neg (by omega),
      if_neg (by simp [hf1]), if_neg (by simp [hf2]),
      if_neg (by rintro ⟨-, hlt⟩; omega)]
    exact ⟨_, rfl⟩

theorem revoke_blocks_open_keeps_close_witness :
    (1 = sampleDelegation.botAuthority →
      openPosition { sampleDelegation with isActive := false } 1 7 50 10 20 5 0 =
        .error .DelegationInactive) ∧
    (∃ r, closePosition { sampleDelegation with isActive := false }
        samplePosition 1 30 75 9 = .ok r) := by
  have h := revoke_blocks_open_keeps_close sampleDelegation
    { sampleDelegation with isActive := false } 0 rfl
  exact ⟨fun _ => h.1 1 7 50 10 20 5 0 (by decide),
    h.2 samplePosition 1 30 75 9 (by decide) (by decide) (by decide) (by decide)
      (by decide) (by decide)⟩

/-- C4: an authorized open attempt on an active delegation with amountSol
strictly above maxPositionSizeSol fails PositionTooLarge and leaves the
delegation record unchanged, creating no position. -/
theorem open_too_large_rejected (d : DelegationAccount)
    (caller tokenMint amountSol entryPrice takeProfitPrice stopLossPrice : Nat)
    (now : Int) (hc : caller = d.botAuthority) (ha : d.isActive = true)
    (hbig : d.maxPositionSizeSol < amountSol) :
    openPosition d caller tokenMint amountSol entryPrice takeProfitPrice
      stopLossPrice now = .error .PositionTooLarge ∧
    applyOpenPosition d caller tokenMint amountSol entryPrice takeProfitPrice
      stopLossPrice now = d := by
  have heq : openPosition d caller tokenMint amountSol entryPrice takeProfitPrice
      stopLossPrice now = .error .PositionTooLarge := by
    unfold openPosition
    rw [if_neg (by simp [hc]), if_neg (by simp [ha]), if_pos hbig]
  exact ⟨heq, by unfold applyOpenPosition; rw [heq]⟩

theorem open_too_large_rejected_witness :
    openPosition sampleDelegation 1 7 101 10 20 5 0 = .error .PositionTooLarge ∧
    applyOpenPosition sampleDelegation 1 7 101 10 20 5 0 = sampleDelegation :=
  open_too_large_rejected sampleDelegation 1 7 101 10 20 5 0
    (by decide) (by decide) (by decide)

/-- C5: createDelegation and updateDelegation fail InvalidStrategy for any
strategy code outside 0..3 and InvalidAmount for maxPositionSizeSol zero or
maxConcurrentTrades outside 1..10, and on any such failure the existing
delegation record is left unchanged. -/
theorem invalid_params_rejected (d : DelegationAccount) (caller : PubKey)
    (hc : caller = d.user) :
    (∀ (u b : PubKey) (s mp mt : Nat) (now : Int), 3 < s →
        createDelegation u b s mp mt now = .error .InvalidStrategy) ∧
    (∀ (u b : PubKey) (s mp mt : Nat) (now : Int), s ≤ 3 →
        (mp = 0 ∨ mt < 1 ∨ 10 < mt) →
        createDelegation u b s mp mt now = .error .InvalidAmount) ∧
    (∀ (s : Nat) (nmp nmt : Option Nat) (na : Option Bool), 3 < s →
        updateDelegation d caller (some s) nmp nmt na = .error .InvalidStrategy ∧
        applyUpdateDelegation d caller (some s) nmp nmt na = d) ∧
    (∀ (ns nmt : Option Nat) (na : Option Bool), (∀ s ∈ ns, s ≤ 3) →
        updateDelegation d caller ns (some 0) nmt na = .error .InvalidAmount ∧
        applyUpdateDelegation d caller ns (some 0) nmt na = d) ∧
    (∀ (ns nmp : Option Nat) (mt : Nat) (na : Option Bool), (∀ s ∈ ns, s ≤ 3) →
        (∀ m ∈ nmp, m ≠ 0) → (mt < 1 ∨ 10 < mt) →
        updateDelegation d caller ns nmp (some mt) na = .error .InvalidAmount ∧
        applyUpdateDelegation d caller ns nmp (some mt) na = d) := by
  refine ⟨?_, ?_, ?_, ?_, ?_⟩
  · intro u b s mp mt now hs
    unfold createDelegation
    rw [if_pos hs]
  · intro u b s mp mt now hs hbad
    unfold createDelegation
    rw [if_neg (by omega), if_pos hbad]
  · intro s nmp nmt na hs
    have heq : updateDelegation d caller (some s) nmp nmt na = .error .InvalidStrategy := by
      unfold updateDelegation
      rw [if_neg (by simp [hc]), if_pos (by simpa using hs)]
    exact ⟨heq, by unfold applyUpdateDelegation; rw [heq]⟩
  · intro ns nmt na hns
    have heq : updateDelegation d caller ns (some 0) nmt na = .error .InvalidAmount := by
      unfold updateDelegation
      rw [if_neg (by simp [hc]), if_neg ?hstrat, if_pos (by simp)]
      case hstrat =>
        cases ns with
        | none => simp
        | some s => simpa using Nat.not_lt.mpr (hns s rfl)
    exact ⟨heq, by unfold applyUpdateDelegation; rw [heq]⟩
  · intro ns nmp mt na hns hnmp hmt
    have heq : updateDelegation d caller ns nmp (some mt) na = .error .InvalidAmount := by
      unfold updateDelegation
      rw [if_neg (by simp [hc]), if_neg ?hstrat2, if_neg ?hmp, if_pos (by simp; omega)]
      case hstrat2 =>
        cases ns with
        | none => simp
        | some s => simpa using Nat.not_lt.mpr (hns s rfl)
      case hmp =>
        cases nmp with
        | none => simp
        | some m => simpa using hnmp m rfl
    exact ⟨heq, by unfold applyUpdateDelegation; rw [heq]⟩

theorem invalid_params_rejected_witness :
    createDelegation 0 1 99 100 3 0 = .error .InvalidStrategy ∧
    createDelegation 0 1 0 0 3 0 = .error .InvalidAmount ∧
    updateDelegation sampleDelegation 0 (some 7) none none none = .error .InvalidStrategy ∧
    applyUpdateDelegation sampleDelegation 0 (some 7) none none none = sampleDelegation ∧
    updateDelegation sampleDelegation 0 none (some 0) none none = .error .InvalidAmount ∧
    updateDelegation sampleDelegation 0 none none (some 100) none = .error .InvalidAmount := by
  have h := invalid_params_rejected sampleDelegation 0 (by decide)
  have h3 := h.2.2.1 7 none none none (by decide)
  exact ⟨h.1 0 1 99 100 3 0 (by decide), h.2.1 0 1 0 0 3 0 (by decide) (by simp),
    h3.1, h3.2,
    (h.2.2.2.1 none none none (by simp)).1,
    (h.2.2.2.2 none none 100 none (by simp) (by simp) (by omega)).1⟩

/-- C6: closing a position whose status is not Open fails AlreadyClosed and
leaves both records unchanged, and any successful close starts from an Open
position and ends Closed, so status transitions Open to Closed exactly once. -/
theorem close_nonopen_rejected (d : DelegationAccount) (p : Position)
    (caller : PubKey) (xp ar : Nat) (now : Int) (hc : caller = d.botAuthority) :
    (p.status ≠ .Open →
       closePosition d p caller xp ar now = .error .AlreadyClosed ∧
       applyClosePosition d p caller xp ar now = (d, p)) ∧
    (∀ (d' : DelegationAccount) (p' : Position),
       closePosition d p caller xp ar now = .ok (d', p') →
       p.status = .Open ∧ p'.status = .Closed) := by
  constructor
  · intro hq
    have heq : closePosition d p caller xp ar now = .error .AlreadyClosed := by
      unfold closePosition
      rw [if_neg (by simp [hc]), if_pos hq]
    exact ⟨heq, by unfold applyClosePosition; rw [heq]⟩
  · intro d' p' h
    obtain ⟨h1, h2, -⟩ := closePosition_ok_fields h
    exact ⟨h1, h2⟩

theorem close_nonopen_rejected_witness :
    closePosition sampleDelegation sampleClosedPosition 1 40 80 12 =
      .error .AlreadyClosed ∧
    applyClosePosition sampleDelegation sampleClosedPosition 1 40 80 12 =
      (sampleDelegation, sampleClosedPosition) :=
  (close_nonopen_rejected sampleDelegation sampleClosedPosition 1 40 80 12
    (by decide)).1 (by decide)

/-- The four trading strategies, in the order of their stored codes 0..3. -/
inductive Strategy where
  | conservative
  | ultraEarlySniper
  | momentumScalper
  | graduationAnticipator
deriving DecidableEq, Repr

/-- Exit parameters of a strategy: take-profit as a multiple of the entry
price in tenths, stop-loss percentage, timeout in seconds, optional trailing
stop as (activation gain percent, trailing distance percent), and whether the
graduation event overrides the price rules. -/
structure StrategyExitParams where
  takeProfitTenths : Nat
  stopLossPercent : Nat
  timeoutSeconds : Nat
  trailingStop : Option (Nat × Nat)
  graduationOverride : Bool
deriving DecidableEq, Repr

/-- Modelled from the spec: the exit-policy engine source (the bot's
`analyzer.rs`/`trader.rs` with `get_exit_params`) is not in the repository
snapshot; this is the exit-parameter table of spec section 4.4. -/
def exitParams : Strategy → StrategyExitParams
  | .conservative =>
      { takeProfitTenths := 20, stopLossPercent := 50, timeoutSeconds := 3600,
        trailingStop := none, graduationOverride := false }
  | .ultraEarlySniper =>
      { takeProfitTenths := 30, stopLossPercent := 30, timeoutSeconds := 600,
        trailingStop := none, graduationOverride := false }
  | .momentumScalper =>
      { takeProfitTenths := 15, stopLossPercent := 25, timeoutSeconds := 1800,
        trailingStop := some (20, 10), graduationOverride := false }
  | .graduationAnticipator =>
      { takeProfitTenths := 18, stopLossPercent := 35, timeoutSeconds := 7200,
        trailingStop := none, graduationOverride := true }

/-- Exit parameters as documented per strategy in the repository's strategy
guide (the per-strategy Exit Parameters sections: 2x, 50%, 3600 s, no trailing;
3x, 30%, 600 s, no trailing; 1.5x, 25%, 1800 s, trailing activating at +20%
with a 10% trail; 1.8x, 35%, 7200 s, no trailing with the auto-sell on the
graduation event) and in the frontend StrategySelector exitParams data. -/
def documentedExitParams : Strategy → StrategyExitParams
  | .conservative =>
      { takeProfitTenths := 20, stopLossPercent := 50, timeoutSeconds := 3600,
        trailingStop := none, graduationOverride := false }
  | .ultraEarlySniper =>
      { takeProfitTenths := 30, stopLossPercent := 30, timeoutSeconds := 600,
        trailingStop := none, graduationOverride := false }
  | .momentumScalper =>
      { takeProfitTenths := 15, stopLossPercent := 25, timeoutSeconds := 1800,
        trailingStop := some (20, 10), graduationOverride := false }
  | .graduationAnticipator =>
      { takeProfitTenths := 18, stopLossPercent := 35, timeoutSeconds := 7200,
        trailingStop := none, graduationOverride := true }

/-- C7: for every strategy the exit parameters used by the exit-policy engine
equal exactly the documented table values: Conservative 2.0x entry take-profit,
50% stop-loss, 3600 s timeout, no trailing stop; UltraEarlySniper 3.0x, 30%,
600 s, none; MomentumScalper 1.5x, 25%, 1800 s, trailing stop activating at
+20% with a 10% trail; GraduationAnticipator 1.8x, 35%, 7200 s, none with the
graduation override. -/
theorem exitParams_match_table :
    (∀ s, exitParams s = documentedExitParams s) ∧
    exitParams .conservative =
      { takeProfitTenths := 20, stopLossPercent := 50, timeoutSeconds := 3600,
        trailingStop := none, graduationOverride := false } ∧
    exitParams .ultraEarlySniper =
      { takeProfitTenths := 30, stopLossPercent := 30, timeoutSeconds := 600,
        trailingStop := none, graduationOverride := false } ∧
    exitParams .momentumScalper =
      { takeProfitTenths := 15, stopLossPercent := 25, timeoutSeconds := 1800,
        trailingStop := some (20, 10), graduationOverride := false } ∧
    exitParams .graduationAnticipator =
      { takeProfitTenths := 18, stopLossPercent := 35, timeoutSeconds := 7200,
        trailingStop := none, graduationOverride := true } :=
  ⟨fun s => by cases s <;> rfl, rfl, rfl, rfl, rfl⟩

/-- Signal kinds produced by the scorer. -/
inductive SignalKind where
  | StrongBuy
  | Buy
  | Hold
  | Sell
  | StrongSell
deriving DecidableEq, Repr

/-- Modelled from the spec: the signal scorer source (the bot's `analyzer.rs`)
is not in the repository snapshot; the minimum confidence required to act on a
buy signal follows the strategy guide (80% for Conservative, 75% for the other
three strategies). -/
def minConfidence : Strategy → ℚ
  | .conservative => 80/100
  | .ultraEarlySniper => 75/100
  | .momentumScalper => 75/100
  | .graduationAnticipator => 75/100

/-- Modelled from the spec: the signal scorer source is not in the repository
snapshot; the confidence-to-kind thresholds follow the bot strategy
documentation (85% and above StrongBuy, 65-85% Buy, 45-65% Hold, 30-45% Sell,
below 30% StrongSell). -/
def signalKind (confidence : ℚ) : SignalKind :=
  if 85/100 ≤ confidence then .StrongBuy
  else if 65/100 ≤ confidence then .Buy
  else if 45/100 ≤ confidence then .Hold
  else if 30/100 ≤ confidence then .Sell
  else .StrongSell

/-- Modelled from the spec: a Buy or StrongBuy signal below the strategy's
minimum confidence is treated as Hold. -/
def actionableSignal (s : Strategy) (confidence : ℚ) : SignalKind :=
  if (signalKind confidence = .Buy ∨ signalKind confidence = .StrongBuy) ∧
      confidence < minConfidence s then .Hold
  else signalKind confidence

/-- C8: the scorer maps a confidence score to the signal kind by the fixed
thresholds (at or above 0.85 StrongBuy, in [0.65, 0.85) Buy, in [0.45, 0.65)
Hold, in [0.30, 0.45) Sell, below 0.30 StrongSell), and a Buy or StrongBuy
below the strategy-specific minimum confidence (between 75% and 80%) is
treated as Hold. -/
theorem signal_thresholds (s : Strategy) (c : ℚ) :
    (85/100 ≤ c → signalKind c = .StrongBuy) ∧
    (65/100 ≤ c → c < 85/100 → signalKind c = .Buy) ∧
    (45/100 ≤ c → c < 65/100 → signalKind c = .Hold) ∧
    (30/100 ≤ c → c < 45/100 → signalKind c = .Sell) ∧
    (c < 30/100 → signalKind c = .StrongSell) ∧
    ((signalKind c = .Buy ∨ signalKind c = .StrongBuy) → c < minConfidence s →
      actionableSignal s c = .Hold) ∧
    75/100 ≤ minConfidence s ∧ minConfidence s ≤ 80/100 := by
  refine ⟨?_, ?_, ?_, ?_, ?_, ?_, ?_, ?_⟩
  · intro h1
    unfold signalKind
    rw [if_pos h1]
  · intro h1 h2
    unfold signalKind
    rw [if_neg (not_le.mpr h2), if_pos h1]
  · intro h1 h2
    unfold signalKind
    rw [if_neg (not_le.mpr (by linarith)), if_neg (not_le.mpr h2), if_pos h1]
  · intro h1 h2
    unfold signalKind
    rw [if_neg (not_le.mpr (by linarith)), if_neg (not_le.mpr (by linarith)),
      if_neg (not_le.mpr h2), if_pos h1]
  · intro h1
    unfold signalKind
    rw [if_neg (not_le.mpr (by linarith)), if_neg (not_le.mpr (by linarith)),
      if_neg (not_le.mpr (by linarith)), if_neg (not_le.mpr h1)]
  · intro hk hlt
    unfold actionableSignal
    rw [if_pos ⟨hk, hlt⟩]
  · cases s <;> norm_num [minConfidence]
  · cases s <;> norm_num [minConfidence]

theorem signal_thresholds_witness :
    signalKind (7/10) = .Buy ∧
    actionableSignal .ultraEarlySniper (7/10) = .Hold ∧
    (75/100 : ℚ) ≤ minConfidence .ultraEarlySniper := by
  have h := signal_thresholds .ultraEarlySniper (7/10)
  have hbuy : signalKind (7/10) = .Buy := h.2.1 (by norm_num) (by norm_num)
  exact ⟨hbuy,
    h.2.2.2.2.2.1 (Or.inl hbuy) (by norm_num [minConfidence]),
    h.2.2.2.2.2.2.1⟩

/-- Modelled from the spec: the program derives the delegation account address
deterministically with findProgramAddressSync from the fixed seed "delegation"
together with the user's public key, exactly as the tests do; PDA derivation
is a deterministic, collision-free function of the program id and the seeds,
modelled here as the seed tuple itself. The strategy is not part of the
seeds. -/
def delegationAddress (programId : Nat) (user : PubKey) : Nat × String × PubKey :=
  (programId, "delegation", user)

/-- The delegation ledger keyed by derived account address (spec design note:
a keyed map from derived address to Delegation). -/
abbrev DelegationLedger := List ((Nat × String × PubKey) × DelegationAccount)

/-- A ledger is well keyed when no account address occurs twice. -/
def WellKeyed (L : DelegationLedger) : Prop := (L.map Prod.fst).Nodup

theorem wellKeyed_unique {L : DelegationLedger} (h : WellKeyed L)
    {k : Nat × String × PubKey} {d1 d2 : DelegationAccount}
    (h1 : (k, d1) ∈ L) (h2 : (k, d2) ∈ L) : d1 = d2 := by
  induction L with
  | nil => simp at h1
  | cons a tl ih =>
      unfold WellKeyed at h
      simp only [List.map_cons, List.nodup_cons] at h
      obtain ⟨hni, hnd⟩ := h
      rcases List.mem_cons.mp h1 with h1a | h1a <;>
        rcases List.mem_cons.mp h2 with h2a | h2a
      · rw [← h1a] at h2a
        exact (Prod.mk.injEq _ _ _ _ ▸ h2a).2.symm
      · exact absurd (List.mem_map_of_mem Prod.fst h2a) (by rw [← h1a] at hni; exact hni)
      · exact absurd (List.mem_map_of_mem Prod.fst h1a) (by rw [← h2a] at hni; exact hni)
      · exact ih hnd h1a h2a

/-- C9: the delegation account address is derived from the fixed seed
"delegation" and the user's public key only, so it is injective in the user
and independent of the strategy, and a well-keyed ledger holds at most one
delegation record per user. -/
theorem delegation_address_unique :
    (∀ (pid : Nat) (u1 u2 : PubKey),
       delegationAddress pid u1 = delegationAddress pid u2 ↔ u1 = u2) ∧
    (∀ (L : DelegationLedger), WellKeyed L →
       ∀ (pid : Nat) (u : PubKey) (d1 d2 : DelegationAccount),
         (delegationAddress pid u, d1) ∈ L → (delegationAddress pid u, d2) ∈ L →
         d1 = d2) := by
  constructor
  · intro pid u1 u2
    simp [delegationAddress]
  · intro L hL pid u d1 d2 h1 h2
    exact wellKeyed_unique hL h1 h2

theorem delegation_address_unique_witness :
    (delegationAddress 42 5 = delegationAddress 42 6 ↔ (5 : PubKey) = 6) ∧
    sampleDelegation = sampleDelegation := by
  have h := delegation_address_unique
  exact ⟨h.1 42 5 6,
    h.2 [(delegationAddress 42 5, sampleDelegation)] (by simp [WellKeyed]) 42 5
      sampleDelegation sampleDelegation (by simp) (by simp)⟩

/-- Observable actions of the frontend delegation manager. -/
inductive FrontendAction where
  | setLoading (flag : Bool)
  | sleepMs (ms : Nat)
  | setError (msg : String)
  | setSuccess (msg : String)
  | sendTransaction
  | notifyDelegationCreated
deriving DecidableEq, Repr

/-- Embedded from `createDelegation` in
`src/frontend/components/DelegationManager.tsx`: with no wallet connected it
only reports the connect-your-wallet error; otherwise it sets the loading
flag, clears both messages, awaits a fixed 2000 ms timeout in place of the
program interaction (marked TODO in the source), reports success, optionally
fires the onDelegationCreated callback and resets the loading flag. The
selected strategy and the limit inputs are unused and no transaction is ever
constructed or submitted. -/
def delegationManagerCreate (publicKey : Option PubKey)
    (selectedStrategy : String) (maxPositionSize : ℚ)
    (maxConcurrentTrades : Nat) (hasCallback : Bool) : List FrontendAction :=
  match publicKey with
  | none => [.setError "Please connect your wallet first"]
  | some _ =>
      [.setLoading true, .setError "", .setSuccess "", .sleepMs 2000,
       .setSuccess "Delegation created successfully! You can now use the selected strategy."]
      ++ (if hasCallback then [.notifyDelegationCreated] else [])
      ++ [.setLoading false]

/-- C10: for every connected wallet and every choice of strategy and limits
the frontend delegation manager never constructs or submits a transaction; it
waits a fixed delay and then unconditionally reports success, and it can fail
only when no wallet is connected. -/
theorem frontend_create_delegation_stub (publicKey : Option PubKey)
    (selectedStrategy : String) (maxPositionSize : ℚ)
    (maxConcurrentTrades : Nat) (hasCallback : Bool) :
    FrontendAction.sendTransaction ∉
      delegationManagerCreate publicKey selectedStrategy maxPositionSize
        maxConcurrentTrades hasCallback ∧
    (publicKey = none →
      delegationManagerCreate publicKey selectedStrategy maxPositionSize
        maxConcurrentTrades hasCallback =
        [.setError "Please connect your wallet first"]) ∧
    (∀ k, publicKey = some k →
      FrontendAction.sleepMs 2000 ∈
        delegationManagerCreate publicKey selectedStrategy maxPositionSize
          maxConcurrentTrades hasCallback ∧
      FrontendAction.setSuccess
          "Delegation created successfully! You can now use the selected strategy." ∈
        delegationManagerCreate publicKey selectedStrategy maxPositionSize
          maxConcurrentTrades hasCallback ∧
      ∀ msg, FrontendAction.setError msg ∈
          delegationManagerCreate publicKey selectedStrategy maxPositionSize
            maxConcurrentTrades hasCallback → msg = "") := by
  cases publicKey with
  | none =>
      refine ⟨by simp [delegationManagerCreate], fun _ => rfl, fun k hk => by simp at hk⟩
  | some k =>
      refine ⟨?_, fun hn => by simp at hn, fun k2 _ => ⟨?_, ?_, ?_⟩⟩ <;>
        cases hasCallback <;> simp [delegationManagerCreate]

theorem frontend_create_delegation_stub_witness :
    FrontendAction.sendTransaction ∉
      delegationManagerCreate none "conservative" (1/2) 3 false ∧
    delegationManagerCreate none "conservative" (1/2) 3 false =
      [.setError "Please connect your wallet first"] := by
  have h := frontend_create_delegation_stub none "conservative" (1/2) 3 false
  exact ⟨h.1, h.2.1 rfl⟩

end CurveriderVault
